import Mathlib

/-!
Verification development for the lathund live-documentation server
(src/lathund.py, src/live_server.py).

The Python code is shallowly embedded: pure string manipulation is
translated to executable functions over `List Char`, the regex patterns the
code uses are translated to dedicated scanners implementing exactly those
patterns, and the stateful handlers (file watcher debounce, content save,
code execution) are translated to explicit state-passing functions whose
interaction with the OS (clock, filesystem failures, subprocess behaviour)
is supplied by explicit oracle arguments.
-/

/-! ## Basic Python string primitives -/

/-- Python whitespace for str.strip and the regex class backslash-s,
restricted to the ASCII whitespace characters (the inputs handled here are
ASCII; Unicode whitespace is not modelled). -/
def isPySpace (c : Char) : Bool :=
  c = ' ' || c = '\t' || c = '\n' || c = '\r' || c = Char.ofNat 11 || c = Char.ofNat 12

/-- Python str.strip(): remove leading and trailing whitespace. -/
def pyStrip (s : List Char) : List Char :=
  ((s.dropWhile isPySpace).reverse.dropWhile isPySpace).reverse

/-- Python str.endswith(suffix). -/
def pyEndswith (suffix s : String) : Bool :=
  suffix.data.isSuffixOf s.data

/-- Python str.find(pattern): index of the first occurrence, or -1 when the
pattern does not occur. -/
def pyFind (pat : List Char) : List Char → Int
  | [] => if pat.isPrefixOf ([] : List Char) then 0 else -1
  | c :: rest =>
    if pat.isPrefixOf (c :: rest) then 0
    else
      let r := pyFind pat rest
      if r < 0 then -1 else r + 1

/-- A Python dict as an association list; lookup of a key. -/
def alistGet? {α : Type} : List (String × α) → String → Option α
  | [], _ => none
  | (k', v) :: rest, k => if k' = k then some v else alistGet? rest k

/-- Python dict item assignment d[k] = v: replace the binding if the key is
present, append it otherwise. -/
def alistSet {α : Type} : List (String × α) → String → α → List (String × α)
  | [], k, v => [(k, v)]
  | (k', v') :: rest, k, v =>
    if k' = k then (k, v) :: rest else (k', v') :: alistSet rest k v

theorem alistGet_alistSet {α : Type} (d : List (String × α)) (k : String) (v : α) :
    alistGet? (alistSet d k v) k = some v := by
  induction d with
  | nil => simp [alistSet, alistGet?]
  | cons kv rest ih =>
    obtain ⟨k', v'⟩ := kv
    by_cases h : k' = k
    · simp [alistSet, alistGet?, h]
    · simp [alistSet, alistGet?, h, ih]

/-! ## Renderer split (LiveServer.generate_html, lathund.main)

The markdown-to-HTML conversion itself is the external markdown library; the
code under verification is the split of its output `md_html` at the first
closing div tag:

    end_tag = "</div>"
    toc_end = md_html.find(end_tag) + len(end_tag)
    toc_html = md_html[0:toc_end]
    body_html = md_html[toc_end:]

We embed exactly this split, over the converted HTML text. toc_end is at
least 5 (find returns -1 at the smallest), so the Python slices coincide
with take/drop at toc_end. -/

def end_tag : List Char := "</div>".data

/-- The split of the converted HTML into (toc_html, body_html) performed by
LiveServer.generate_html and lathund.main. -/
def generate_html_split (md_html : List Char) : List Char × List Char :=
  let toc_end : Int := pyFind end_tag md_html + end_tag.length
  (md_html.take toc_end.toNat, md_html.drop toc_end.toNat)

/-! ## Change Watcher (FileChangeHandler) -/

/-- A watchdog filesystem event: directory flag and source path. -/
structure FsEvent where
  is_directory : Bool
  src_path : String
deriving DecidableEq

/-- The mutable state of FileChangeHandler: the per-path debounce timestamps
dict self.last_modified. Time is modelled as an exact rational number of
seconds (the code compares time.time() differences against 0.5). -/
structure FCHState where
  last_modified : List (String × ℚ)
deriving DecidableEq

/-- FileChangeHandler.on_modified, with the clock value time.time() passed
explicitly. Returns the new handler state and whether self.callback was
invoked. Translated line by line: directory events return at once; an event
whose path is in the dict with now - last < 0.5 returns (before touching the
dict); otherwise the timestamp is stored and the callback fires iff the path
ends in ".md". -/
def on_modified (h : FCHState) (event : FsEvent) (now : ℚ) : FCHState × Bool :=
  if event.is_directory then (h, false)
  else
    match alistGet? h.last_modified event.src_path with
    | some last =>
      if now - last < 1/2 then (h, false)
      else
        (⟨alistSet h.last_modified event.src_path now⟩, pyEndswith ".md" event.src_path)
    | none =>
        (⟨alistSet h.last_modified event.src_path now⟩, pyEndswith ".md" event.src_path)

/-- Feed a timed sequence of events to the handler and count the callback
invocations. -/
def runEvents : FCHState → List (FsEvent × ℚ) → FCHState × Nat
  | h, [] => (h, 0)
  | h, (e, t) :: rest =>
    let step := on_modified h e t
    let further := runEvents step.1 rest
    (further.1, (if step.2 then 1 else 0) + further.2)

/-! ## Regex scanners

The Reconciler (LiveServer.html_to_markdown and
LiveServer._convert_tables_to_markdown) is written with re.sub and
re.findall over a handful of fixed patterns, all of the shape

    OPEN1 [^>]* '>' ( OPEN2 [^>]* '>' ... ) (.*?) CLOSE      (with re.DOTALL)

plus three simpler shapes handled by dedicated scanners further below. The
functions here implement exactly those patterns: a left-to-right scan that,
at each position, attempts a match (advancing past the whole match and
emitting the replacement on success, advancing one character otherwise), as
re.sub and re.findall do. Scanners that can skip several characters at once
carry an explicit fuel argument; top-level wrappers pass length + 1, which
the strictly shrinking input makes sufficient. -/

/-- Consume the regex fragment [^>]* '>': skip to just past the first '>'.
none when no '>' remains. -/
def consumeTagRest : List Char → Option (List Char)
  | [] => none
  | c :: rest => if c = '>' then some rest else consumeTagRest rest

/-- Consume the regex fragment [^>]+ '>' (at least one character before the
'>'). -/
def consumeTagPlus : List Char → Option (List Char)
  | [] => none
  | c :: rest => if c = '>' then none else consumeTagRest rest

/-- The length of the first pattern in pats that is a prefix of s. -/
def firstPrefixLen : List (List Char) → List Char → Option Nat
  | [], _ => none
  | p :: ps, s => if p.isPrefixOf s then some p.length else firstPrefixLen ps s

/-- Non-greedy search (.*?) up to the first position where one of the given
literal alternatives matches: returns (text before the match, text after
the matched alternative). -/
def splitAtSubAlts (pats : List (List Char)) : List Char → Option (List Char × List Char)
  | [] =>
    match firstPrefixLen pats [] with
    | some n => some ([], ([] : List Char).drop n)
    | none => none
  | c :: rest =>
    match firstPrefixLen pats (c :: rest) with
    | some n => some ([], (c :: rest).drop n)
    | none =>
      match splitAtSubAlts pats rest with
      | some (pre, post) => some (c :: pre, post)
      | none => none

/-- Match one regex "open tag" group  ALT [^>]* '>'  where ALT is the first
alternative that is a literal prefix of s; returns the text after the '>'. -/
def matchOpenAlts : List (List Char) → List Char → Option (List Char)
  | [], _ => none
  | a :: as, s =>
    if a.isPrefixOf s then consumeTagRest (s.drop a.length)
    else matchOpenAlts as s

/-- Match a sequence of open-tag groups in order. -/
def matchOpensSeq : List (List (List Char)) → List Char → Option (List Char)
  | [], s => some s
  | g :: gs, s =>
    match matchOpenAlts g s with
    | some r => matchOpensSeq gs r
    | none => none

/-- Match, at the head of s, the pattern
OPENS (.*?) CLOSE-ALTERNATIVES; returns (whole match, captured group, rest
after the match). -/
def matchTagAt (opens : List (List (List Char))) (closeAlts : List (List Char))
    (s : List Char) : Option (List Char × List Char × List Char) :=
  match matchOpensSeq opens s with
  | none => none
  | some afterOpen =>
    match splitAtSubAlts closeAlts afterOpen with
    | none => none
    | some (captured, after) =>
      some (s.take (s.length - after.length), captured, after)

/-- re.sub for a tag pattern, with the replacement computed from the whole
match and the captured group (fueled scan). -/
def subTagFAux (opens : List (List (List Char))) (closeAlts : List (List Char))
    (repl : List Char → List Char → List Char) : Nat → List Char → List Char
  | 0, s => s
  | _ + 1, [] => []
  | fuel + 1, c :: rest =>
    match matchTagAt opens closeAlts (c :: rest) with
    | some (whole, captured, after) =>
      repl whole captured ++ subTagFAux opens closeAlts repl fuel after
    | none => c :: subTagFAux opens closeAlts repl fuel rest

/-- re.sub for a tag pattern (wrapper supplying the fuel). -/
def subTagF (opens : List (List (List Char))) (closeAlts : List (List Char))
    (repl : List Char → List Char → List Char) (s : List Char) : List Char :=
  subTagFAux opens closeAlts repl (s.length + 1) s

/-- re.sub of the common shape  <TAG[^>]*>(.*?)</TAG>  →  pre ++ group ++ post. -/
def subTag (openLit closeLit pre post : String) (s : List Char) : List Char :=
  subTagF [[openLit.data]] [closeLit.data] (fun _ cap => pre.data ++ cap ++ post.data) s

/-- re.findall for a tag pattern: the list of captured groups (fueled scan). -/
def findAllTagAux (opens : List (List (List Char))) (closeAlts : List (List Char)) :
    Nat → List Char → List (List Char)
  | 0, _ => []
  | _ + 1, [] => []
  | fuel + 1, c :: rest =>
    match matchTagAt opens closeAlts (c :: rest) with
    | some (_, captured, after) => captured :: findAllTagAux opens closeAlts fuel after
    | none => findAllTagAux opens closeAlts fuel rest

/-- re.findall for a tag pattern (wrapper supplying the fuel). -/
def findAllTag (opens : List (List (List Char))) (closeAlts : List (List Char))
    (s : List Char) : List (List Char) :=
  findAllTagAux opens closeAlts (s.length + 1) s

/-- re.sub(r'<[^>]+>', '', s): strip every HTML tag (fueled scan). -/
def stripTagsPlainAux : Nat → List Char → List Char
  | 0, s => s
  | _ + 1, [] => []
  | fuel + 1, c :: rest =>
    if c = '<' then
      match consumeTagPlus rest with
      | some after => stripTagsPlainAux fuel after
      | none => c :: stripTagsPlainAux fuel rest
    else c :: stripTagsPlainAux fuel rest

/-- re.sub(r'<[^>]+>', '', s) (wrapper supplying the fuel). -/
def stripTagsPlain (s : List Char) : List Char :=
  stripTagsPlainAux (s.length + 1) s

/-- Python regex word character (ASCII model of the class backslash-w). -/
def isWordChar (c : Char) : Bool :=
  c.isAlpha || c.isDigit || c = '_'

/-- The negative lookahead (?!/?u\b) of re.sub(r'<(?!/?u\b)[^>]+>', '', s)
FAILS (blocking the match) exactly when the text after '<' starts with an
optional '/', then 'u', then a word boundary. -/
def uTagLookaheadBlocks : List Char → Bool
  | 'u' :: t =>
    match t with
    | [] => true
    | d :: _ => !isWordChar d
  | '/' :: 'u' :: t =>
    match t with
    | [] => true
    | d :: _ => !isWordChar d
  | _ => false

/-- re.sub(r'<(?!/?u\b)[^>]+>', '', s): strip every remaining tag except the
underline tags <u ...> and </u ...> (fueled scan). -/
def stripTagsExceptUAux : Nat → List Char → List Char
  | 0, s => s
  | _ + 1, [] => []
  | fuel + 1, c :: rest =>
    if c = '<' then
      if uTagLookaheadBlocks rest then c :: stripTagsExceptUAux fuel rest
      else
        match consumeTagPlus rest with
        | some after => stripTagsExceptUAux fuel after
        | none => c :: stripTagsExceptUAux fuel rest
    else c :: stripTagsExceptUAux fuel rest

/-- re.sub(r'<(?!/?u\b)[^>]+>', '', s) (wrapper supplying the fuel). -/
def stripTagsExceptU (s : List Char) : List Char :=
  stripTagsExceptUAux (s.length + 1) s

/-- The single-quote character, written numerically. -/
def squote : Char := Char.ofNat 39

/-- The double-quote character, written numerically. -/
def dquote : Char := Char.ofNat 34

/-- Model of html.unescape restricted to the five basic entities
(amp, lt, gt, quot, and the numeric reference for the single quote); other
text passes through unchanged. The full entity table of the html module is
not modelled; the inputs the claims exercise contain no other entities. -/
def htmlUnescapeAux : Nat → List Char → List Char
  | 0, s => s
  | _ + 1, [] => []
  | fuel + 1, c :: rest =>
    let s := c :: rest
    if "&amp;".data.isPrefixOf s then '&' :: htmlUnescapeAux fuel (s.drop 5)
    else if "&lt;".data.isPrefixOf s then '<' :: htmlUnescapeAux fuel (s.drop 4)
    else if "&gt;".data.isPrefixOf s then '>' :: htmlUnescapeAux fuel (s.drop 4)
    else if "&quot;".data.isPrefixOf s then dquote :: htmlUnescapeAux fuel (s.drop 6)
    else if ['&', '#', '3', '9', ';'].isPrefixOf s then squote :: htmlUnescapeAux fuel (s.drop 5)
    else c :: htmlUnescapeAux fuel rest

/-- Model of html.unescape (wrapper supplying the fuel). -/
def htmlUnescape (s : List Char) : List Char :=
  htmlUnescapeAux (s.length + 1) s

/-- Scan the maximal whitespace prefix of s; return (how many newlines it
holds, the text just after its last newline), or none when it holds no
newline. -/
def lastNLSplit : List Char → Option (Nat × List Char)
  | [] => none
  | c :: rest =>
    if isPySpace c then
      match lastNLSplit rest with
      | some (n, suf) => some ((if c = '\n' then n + 1 else n), suf)
      | none => if c = '\n' then some (1, rest) else none
    else none

/-- re.sub(r'\n\s*\n\s*\n', '\n\n', s): the pattern matches from a newline
through the last newline of a whitespace run holding at least three
newlines (both \s* are greedy, so the match ends at the run's last
newline); the run is replaced by exactly two newlines (fueled scan). -/
def collapseNLAux : Nat → List Char → List Char
  | 0, s => s
  | _ + 1, [] => []
  | fuel + 1, c :: rest =>
    if c = '\n' then
      match lastNLSplit (c :: rest) with
      | some (n, suf) =>
        if 3 ≤ n then '\n' :: '\n' :: collapseNLAux fuel suf
        else c :: collapseNLAux fuel rest
      | none => c :: collapseNLAux fuel rest
    else c :: collapseNLAux fuel rest

/-- re.sub(r'\n\s*\n\s*\n', '\n\n', s) (wrapper supplying the fuel). -/
def collapseNewlines (s : List Char) : List Char :=
  collapseNLAux (s.length + 1) s

/-- Python str.join generalised to character lists. -/
def joinSep (sep : List Char) : List (List Char) → List Char
  | [] => []
  | [x] => x
  | x :: xs => x ++ sep ++ joinSep sep xs

/-! ## Reconciler: tables (LiveServer._convert_tables_to_markdown) -/

/-- The row extraction re.findall(r'<tr[^>]*>(.*?)</tr>', table_html, DOTALL). -/
def tableRows (table_html : List Char) : List (List Char) :=
  findAllTag [["<tr".data]] ["</tr>".data] table_html

/-- The cell extraction re.findall(r'<t[hd][^>]*>(.*?)</t[hd]>', row, DOTALL). -/
def rowCells (row : List Char) : List (List Char) :=
  findAllTag [["<th".data, "<td".data]] ["</th>".data, "</td>".data] row

/-- Cell cleaning: strip inner tags, strip whitespace, unescape entities
(in the order the code applies them). -/
def cleanCell (cell : List Char) : List Char :=
  htmlUnescape (pyStrip (stripTagsPlain cell))

/-- The per-row loop body of table_replacer: build the pipe-delimited rows,
inserting the --- separator row after the row at index 0 (only when that
row has cells, exactly as the code does). -/
def buildMarkdownRows : Nat → List (List Char) → List (List Char)
  | _, [] => []
  | i, row :: rs =>
    let cells := rowCells row
    if cells = [] then buildMarkdownRows (i + 1) rs
    else
      let clean := cells.map cleanCell
      let mdRow := "| ".data ++ joinSep " | ".data clean ++ " |".data
      if i = 0 then
        let separator :=
          "| ".data ++ joinSep " | ".data (List.replicate clean.length "---".data) ++ " |".data
        mdRow :: separator :: buildMarkdownRows (i + 1) rs
      else mdRow :: buildMarkdownRows (i + 1) rs

/-- table_replacer: the replacement function passed to re.sub. A table whose
HTML yields no rows, or whose rows all lack cells, is returned unchanged. -/
def table_replacer (table_html : List Char) : List Char :=
  let rows := tableRows table_html
  if rows = [] then table_html
  else
    let markdown_rows := buildMarkdownRows 0 rows
    if markdown_rows = [] then table_html
    else "\n\n".data ++ joinSep "\n".data markdown_rows ++ "\n\n".data

/-- LiveServer._convert_tables_to_markdown:
re.sub(r'<table[^>]*>.*?</table>', table_replacer, html_content, DOTALL). -/
def convert_tables_to_markdown (html_content : List Char) : List Char :=
  subTagF [["<table".data]] ["</table>".data] (fun whole _ => table_replacer whole) html_content

/-! ## Reconciler: links

re.sub(r'<a[^>]*href=["\x27]([^"\x27]*)["\x27][^>]*>(.*?)</a>', r'[\2](\1)', s).
After the literal "<a", the greedy [^>]* backtracks from the longest
candidate, so the engine tries the candidate "href=" occurrences inside the
run of non-'>' characters from the last to the first; within one candidate
the remaining pieces are deterministic (each greedy class is bounded by the
single character that must follow it). -/

/-- Candidate offsets (descending) at which "href=" may start: offsets inside
the non-'>' run after "<a" where "href=" literally occurs. -/
def hrefCandidates (rest : List Char) : List Nat :=
  let run := rest.takeWhile (fun c => c ≠ '>')
  ((List.range (run.length + 1)).filter
    (fun i => "href=".data.isPrefixOf (rest.drop i))).reverse

/-- Match, right after one "href=", the fragment ["\x27]([^"\x27]*)["\x27][^>]*'>':
an opening quote, the captured href (the run of non-quote characters), a
closing quote, then anything up to and including the next '>'. Returns
(captured href, text after the '>'). -/
def linkTryCandidate (afterHref : List Char) : Option (List Char × List Char) :=
  match afterHref with
  | [] => none
  | q :: t =>
    if q = dquote || q = squote then
      let cap := t.takeWhile (fun d => !(d = dquote || d = squote))
      match t.drop cap.length with
      | [] => none
      | _ :: t3 =>
        match consumeTagRest t3 with
        | some afterGt => some (cap, afterGt)
        | none => none
    else none

/-- Try the href candidates in backtracking order; on the first candidate
whose tail also matches (.*?)</a>, return (href, link text, rest after the
whole match). -/
def linkTry (rest : List Char) : List Nat → Option (List Char × List Char × List Char)
  | [] => none
  | i :: is =>
    match linkTryCandidate (rest.drop (i + 5)) with
    | some (g1, afterGt) =>
      match splitAtSubAlts ["</a>".data] afterGt with
      | some (g2, after) => some (g1, g2, after)
      | none => linkTry rest is
    | none => linkTry rest is

/-- Match the whole link pattern at the head of s; returns
(href, link text, rest after the match). -/
def linkMatchAt (s : List Char) : Option (List Char × List Char × List Char) :=
  if "<a".data.isPrefixOf s then
    let rest := s.drop 2
    linkTry rest (hrefCandidates rest)
  else none

/-- The link re.sub (fueled scan); replacement template is square-bracketed
text followed by the parenthesised href. -/
def subLinksAux : Nat → List Char → List Char
  | 0, s => s
  | _ + 1, [] => []
  | fuel + 1, c :: rest =>
    match linkMatchAt (c :: rest) with
    | some (g1, g2, after) =>
      '[' :: g2 ++ ']' :: '(' :: g1 ++ ')' :: subLinksAux fuel after
    | none => c :: subLinksAux fuel rest

/-- The link re.sub (wrapper supplying the fuel). -/
def subLinks (s : List Char) : List Char :=
  subLinksAux (s.length + 1) s

/-! ## Reconciler: LiveServer.html_to_markdown -/

/-- LiveServer.html_to_markdown, translated substitution by substitution in
the order the code applies them. -/
def html_to_markdown_chars (html_content : List Char) : List Char :=
  let content := pyStrip html_content
  let content := convert_tables_to_markdown content
  let content := subTag "<h1" "</h1>" "# " "" content
  let content := subTag "<h2" "</h2>" "## " "" content
  let content := subTag "<h3" "</h3>" "### " "" content
  let content := subTag "<h4" "</h4>" "#### " "" content
  let content := subTag "<h5" "</h5>" "##### " "" content
  let content := subTag "<h6" "</h6>" "###### " "" content
  let content := subTag "<p" "</p>" "" "\n\n" content
  let content :=
    subTagF [["<pre".data], ["<code".data]] ["</code></pre>".data]
      (fun _ cap => "```\n".data ++ cap ++ "\n```\n\n".data) content
  let content := subTag "<code" "</code>" "`" "`" content
  let content := subTag "<strong" "</strong>" "**" "**" content
  let content := subTag "<b" "</b>" "**" "**" content
  let content := subTag "<em" "</em>" "*" "*" content
  let content := subTag "<i" "</i>" "*" "*" content
  let content := subTag "<u" "</u>" "<u>" "</u>" content
  let content := subTag "<li" "</li>" "- " "" content
  let content := subTag "<ul" "</ul>" "" "\n" content
  let content := subTag "<ol" "</ol>" "" "\n" content
  let content := subLinks content
  let content := stripTagsExceptU content
  let content := htmlUnescape content
  let content := collapseNewlines content
  pyStrip content

/-- LiveServer.html_to_markdown on Strings. -/
def html_to_markdown (html_content : String) : String :=
  ⟨html_to_markdown_chars html_content.data⟩

/-! ## Session Broker: content save (LiveServer.handle_content_save)

The handler body is

    try:
        markdown_content = self.html_to_markdown(html_content)
        with open(self.markdown_file, 'w') as f:
            f.write(markdown_content)
        await websocket.send({"type": "content_updated", "status": "success"})
    except Exception as e:
        await websocket.send({"type": "content_updated", "status": "error",
                              "message": str(e)})

The filesystem is modelled by the markdown file's text; where a failure may
arise is supplied as an oracle. Python file semantics are kept: open(path,
'w') truncates the file at once, so an exception raised by the write itself
leaves the file truncated (empty), while an exception raised by the
transform or by open leaves the file as it was. The handler sends only to
the requesting websocket; the model returns the messages sent to that
session and (always empty) messages sent to every other session. -/

/-- An outgoing WebSocket message of the broker. -/
inductive WsOutMsg
  | contentUpdated (status : String) (message : Option String)
  | reload
  | codeExecutionResult (success : Bool) (output stderr error : String)
deriving DecidableEq

/-- Where a save request fails, with str(e) of the raised exception:
an exception inside html_to_markdown, a failure to open the markdown file
for writing, or a failure of the write call itself (raised after open
already truncated the file). -/
inductive SaveFailure
  | transformExc (msg : String)
  | openExc (msg : String)
  | writeExc (msg : String)
deriving DecidableEq

/-- str(e) of an injected save failure. -/
def SaveFailure.excMsg : SaveFailure → String
  | .transformExc m => m
  | .openExc m => m
  | .writeExc m => m

/-- LiveServer.handle_content_save: from the markdown file's current text,
the html_content of the request and the failure oracle, compute (the
markdown file's text afterwards, messages sent to the requesting session,
messages sent to any other session). -/
def handle_content_save (fileBefore html_content : String)
    (fail : Option SaveFailure) : String × List WsOutMsg × List WsOutMsg :=
  match fail with
  | some (.transformExc m) =>
    (fileBefore, [.contentUpdated "error" (some m)], [])
  | some (.openExc m) =>
    (fileBefore, [.contentUpdated "error" (some m)], [])
  | some (.writeExc m) =>
    ("", [.contentUpdated "error" (some m)], [])
  | none =>
    (html_to_markdown html_content, [.contentUpdated "success" none], [])

/-- The save_content branch of LiveServer.websocket_handler passes
data.get('content', ''): the content field when present, '' otherwise. -/
def save_content_field (content : Option String) : String :=
  content.getD ""

/-! ## Execution Sandbox (LiveServer._execute_code) -/

/-- LiveServer._get_file_extension. -/
def get_file_extension (language : String) : String :=
  (alistGet? [
    ("python", ".py"),
    ("javascript", ".js"),
    ("bash", ".sh"),
    ("c", ".c"),
    ("cpp", ".cpp"),
    ("java", ".java"),
    ("rust", ".rs"),
    ("go", ".go")] language).getD ".txt"

/-- os.path.basename, for the POSIX paths used here: the text after the last
slash. -/
def pyBasename (s : String) : String :=
  ⟨(s.data.reverse.takeWhile (fun c => c ≠ '/')).reverse⟩

/-- os.path.dirname, for the POSIX paths used here: the text before the last
slash, empty when there is none. -/
def pyDirname (s : String) : String :=
  let rev := s.data.reverse
  if rev.any (fun c => c = '/') then ⟨((rev.dropWhile (fun c => c ≠ '/')).drop 1).reverse⟩
  else ""

/-- LiveServer._get_c_command. -/
def get_c_command (filename : String) : List String :=
  let executable := filename.replace ".c" ""
  ["sh", "-c", "gcc -o " ++ executable ++ " " ++ filename ++ " && " ++ executable]

/-- LiveServer._get_cpp_command. -/
def get_cpp_command (filename : String) : List String :=
  let executable := filename.replace ".cpp" ""
  ["sh", "-c", "g++ -o " ++ executable ++ " " ++ filename ++ " && " ++ executable]

/-- LiveServer._get_java_command. -/
def get_java_command (filename : String) : List String :=
  let classname := (pyBasename filename).replace ".java" ""
  ["sh", "-c", "javac " ++ filename ++ " && java -cp " ++ pyDirname filename ++ " " ++ classname]

/-- LiveServer._get_rust_command. -/
def get_rust_command (filename : String) : List String :=
  let executable := filename.replace ".rs" ""
  ["sh", "-c", "rustc -o " ++ executable ++ " " ++ filename ++ " && " ++ executable]

/-- LiveServer._get_execution_command: commands.get(language), None for an
unrecognized language tag. -/
def get_execution_command (language filename : String) : Option (List String) :=
  alistGet? [
    ("python", ["python3", filename]),
    ("javascript", ["node", filename]),
    ("bash", ["bash", filename]),
    ("c", get_c_command filename),
    ("cpp", get_cpp_command filename),
    ("java", get_java_command filename),
    ("rust", get_rust_command filename),
    ("go", ["go", "run", filename])] language

/-- The name of the tempfile.NamedTemporaryFile the code writes; the unique
random stem is abstracted, the suffix is the extension the code passes. -/
def tempFileName (language : String) : String :=
  "/tmp/tmpcode" ++ get_file_extension language

/-- What the operating system does with the spawned process, supplied as an
oracle: the process exits by itself with an exit code, captured stdout and
stderr and a list of files it created; or the 30-second asyncio.wait_for
expires first, with the process having created files and spawned
descendant processes; or asyncio.create_subprocess_exec itself raises. -/
inductive ExecEvent
  | completed (exitCode : Int) (out err : String) (created : List String)
  | timedOut (descendants : Nat) (created : List String)
  | spawnRaises (msg : String)
deriving DecidableEq

/-- The files the oracle says the process created (empty when no process
ran). -/
def ExecEvent.createdFiles : ExecEvent → List String
  | .completed _ _ _ created => created
  | .timedOut _ created => created
  | .spawnRaises _ => []

/-- The result dict of LiveServer._execute_code. -/
structure ExecResult where
  success : Bool
  output : String
  stderr : String
  error : String
deriving DecidableEq

/-- The observable side effects of one _execute_code call: the commands
spawned, whether the direct child is still running when the call returns,
how many of its descendant processes are still running, whether the
temporary code file was removed, and which files created by the process
remain on disk. -/
structure ExecTrace where
  spawned : List (List String)
  directChildRunning : Bool
  descendantsRunning : Nat
  tempFileDeleted : Bool
  filesRemaining : List String
deriving DecidableEq

/-- LiveServer._execute_code. The temporary file is written, the command
resolved (an unrecognized tag returns the unsupported-language error with
nothing spawned), the process spawned and awaited under
asyncio.wait_for(..., timeout=30.0). On asyncio.TimeoutError the code calls
process.kill() and awaits process.wait(): kill signals only the direct
child, so its descendants are left running. The finally block removes the
temporary file on every path; files the process itself created are never
touched. An exception from create_subprocess_exec is caught by the outer
except and reported as str(e). -/
def execute_code (code language : String) (ev : ExecEvent) : ExecResult × ExecTrace :=
  let temp_file := tempFileName language
  match get_execution_command language temp_file with
  | none =>
    (⟨false, "", "", "Unsupported language: " ++ language⟩,
     ⟨[], false, 0, true, []⟩)
  | some cmd =>
    match ev with
    | .spawnRaises msg =>
      (⟨false, "", "", msg⟩, ⟨[], false, 0, true, []⟩)
    | .completed exitCode out err created =>
      (⟨exitCode == 0, out, err,
        if exitCode == 0 then "" else "Process exited with code " ++ toString exitCode⟩,
       ⟨[cmd], false, 0, true, created⟩)
    | .timedOut descendants created =>
      (⟨false, "", "", "Code execution timed out (30 seconds)"⟩,
       ⟨[cmd], false, descendants, true, created⟩)

/-! ## Theorems -/

theorem pyFind_eq_neg_one (pat s : List Char)
    (h : ∀ i ≤ s.length, pat.isPrefixOf (s.drop i) = false) :
    pyFind pat s = -1 := by
  induction s with
  | nil =>
    have h0 := h 0 (Nat.le_refl 0)
    simp only [List.drop_zero] at h0
    simp [pyFind, h0]
  | cons c rest ih =>
    have h0 := h 0 (Nat.zero_le _)
    simp only [List.drop_zero] at h0
    have ih' : pyFind pat rest = -1 := by
      refine ih (fun i hi => ?_)
      have hsucc := h (i + 1) (by simpa using Nat.succ_le_succ hi)
      simpa using hsucc
    simp [pyFind, h0, ih']

/-- C1: the claim states that when the converted HTML does not contain
"</div>", the whole output becomes the content fragment and the navigation
fragment is empty. On the code, str.find returns -1, so toc_end is
-1 + len("</div>") = 5: the navigation fragment is the first five
characters of the output, not the empty string. Concretely, on converted
HTML "hello world!" the split is ("hello", " world!"), not
("", "hello world!"). -/
theorem C1_counterexample :
    generate_html_split ("hello world!".data) ≠ (([] : List Char), "hello world!".data) := by
  decide

/-- C1 (amended): for every converted-HTML text in which "</div>" occurs
nowhere, generate_html_split returns the first five characters as the
navigation fragment and the rest as the content fragment; no error is
raised (a degraded, non-fatal outcome). -/
theorem C1_amended_split (s : List Char)
    (h : ∀ i ≤ s.length, end_tag.isPrefixOf (s.drop i) = false) :
    generate_html_split s = (s.take 5, s.drop 5) := by
  have hf := pyFind_eq_neg_one end_tag s h
  simp [generate_html_split, hf,
    show ((-1 : Int) + (end_tag.length : Int)).toNat = 5 from by decide]

/-- C1 amended-claim witness at the concrete input "hello world!". -/
theorem C1_amended_split_witness :
    generate_html_split ("hello world!".data)
      = ("hello world!".data.take 5, "hello world!".data.drop 5) :=
  C1_amended_split ("hello world!".data) (by decide)

/-- C2: the claim states that on any save failure the SourceDocument is left
unmodified. A failure of the write call itself refutes this: open(path,
'w') truncates the file before the write runs, so a write failure leaves
the file empty rather than holding its previous text "original text" —
even though the error message is, as claimed, sent to the requesting
session. -/
theorem C2_counterexample :
    (handle_content_save "original text" "<p>edited</p>"
        (some (.writeExc "disk full"))).1 ≠ "original text"
  ∧ (handle_content_save "original text" "<p>edited</p>"
        (some (.writeExc "disk full"))).2.1
      = [WsOutMsg.contentUpdated "error" (some "disk full")] := by
  decide

/-- C2 (amended): on every save failure the broker sends content_updated
with status error and the exception message to the requesting session
only; the SourceDocument is unmodified when the failure precedes opening
the file (transform exception, open failure), while a failure of the write
itself leaves the file truncated to empty. -/
theorem C2_amended_failure_handling (fileBefore html_content : String) (f : SaveFailure) :
    (handle_content_save fileBefore html_content (some f)).2.1
        = [WsOutMsg.contentUpdated "error" (some f.excMsg)]
  ∧ (handle_content_save fileBefore html_content (some f)).2.2 = []
  ∧ (∀ m, f = .transformExc m ∨ f = .openExc m →
        (handle_content_save fileBefore html_content (some f)).1 = fileBefore)
  ∧ (∀ m, f = .writeExc m →
        (handle_content_save fileBefore html_content (some f)).1 = "") := by
  cases f <;> simp [handle_content_save, SaveFailure.excMsg]

/-- C3: the claim states that on timeout the process tree is forcibly
terminated. The code calls process.kill(), which signals only the directly
spawned child: a bash program that spawned one descendant and timed out
leaves that descendant running after the call returns, so the process tree
is not terminated (the result is still the claimed success=false). -/
theorem C3_counterexample :
    (execute_code "sleep 100 & sleep 60" "bash" (.timedOut 1 [])).2.descendantsRunning ≠ 0
  ∧ (execute_code "sleep 100 & sleep 60" "bash" (.timedOut 1 [])).1.success = false := by
  decide

/-- C3 (amended): for a supported language, on timeout execute kills and
reaps the directly spawned process — so that process is no longer running
when the call returns — and reports success=false with the timeout error
message; descendant processes are not addressed. On normal exit, success
equals (exitCode == 0). -/
theorem C3_amended_timeout (code language : String) (ev : ExecEvent)
    (hsup : (get_execution_command language (tempFileName language)).isSome = true) :
    (∀ d created, ev = .timedOut d created →
        (execute_code code language ev).1.success = false
      ∧ (execute_code code language ev).1.error = "Code execution timed out (30 seconds)"
      ∧ (execute_code code language ev).2.directChildRunning = false)
  ∧ (∀ exitCode out err created, ev = .completed exitCode out err created →
        (execute_code code language ev).1.success = (exitCode == 0)) := by
  obtain ⟨cmd, hcmd⟩ := Option.isSome_iff_exists.mp hsup
  constructor
  · rintro d created rfl
    simp [execute_code, hcmd]
  · rintro exitCode out err created rfl
    simp [execute_code, hcmd]

/-- C3 amended-claim witness: a bash request that times out. -/
theorem C3_amended_timeout_witness :
    (execute_code "sleep 60" "bash" (.timedOut 0 [])).1.success = false
  ∧ (execute_code "sleep 60" "bash" (.timedOut 0 [])).1.error
      = "Code execution timed out (30 seconds)"
  ∧ (execute_code "sleep 60" "bash" (.timedOut 0 [])).2.directChildRunning = false :=
  (C3_amended_timeout "sleep 60" "bash" (.timedOut 0 []) (by decide)).1 0 [] rfl

/-- C4: the comment in handle_content_save says "Temporarily disable file
watcher to prevent recursion", but no suppression is implemented: a
successful save writes the markdown file, and the resulting modification
event for that .md path reaches FileChangeHandler.on_modified like any
external edit — outside the 500 ms debounce window it invokes the
re-render/reload callback. Concretely: a save of "<p>hi</p>" succeeds
(writing "hi"), and the watcher, seeing the write when the path is not in
its debounce map, fires the callback. -/
theorem C4_save_write_triggers_watcher :
    handle_content_save "old text" "<p>hi</p>" none
      = ("hi", [WsOutMsg.contentUpdated "success" none], [])
  ∧ (on_modified ⟨[]⟩ ⟨false, "/tmp/doc.md"⟩ 10).2 = true := by
  decide

/-- C5: an execution request with an unrecognized language tag returns
success=false with the error "Unsupported language: <tag>" and spawns no
subprocess. -/
theorem C5_unsupported_language (code language : String) (ev : ExecEvent)
    (h : get_execution_command language (tempFileName language) = none) :
    (execute_code code language ev).1
      = ⟨false, "", "", "Unsupported language: " ++ language⟩
  ∧ (execute_code code language ev).2.spawned = [] := by
  simp [execute_code, h]

/-- C5 witness at the concrete tag "cobol". -/
theorem C5_unsupported_language_witness :
    (execute_code "DISPLAY 1." "cobol" (.completed 0 "" "" [])).1
      = ⟨false, "", "", "Unsupported language: " ++ "cobol"⟩
  ∧ (execute_code "DISPLAY 1." "cobol" (.completed 0 "" "" [])).2.spawned = [] :=
  C5_unsupported_language "DISPLAY 1." "cobol" (.completed 0 "" "" []) (by decide)

theorem on_modified_found (h : FCHState) (p : String) (t last : ℚ)
    (hget : alistGet? h.last_modified p = some last) :
    on_modified h ⟨false, p⟩ t =
      if t - last < 1/2 then (h, false)
      else (⟨alistSet h.last_modified p t⟩, pyEndswith ".md" p) := by
  unfold on_modified
  simp only [Bool.false_eq_true, if_false, hget]

theorem on_modified_missing (h : FCHState) (p : String) (t : ℚ)
    (hget : alistGet? h.last_modified p = none) :
    on_modified h ⟨false, p⟩ t = (⟨alistSet h.last_modified p t⟩, pyEndswith ".md" p) := by
  unfold on_modified
  simp only [Bool.false_eq_true, if_false, hget]

/-- C6: debounce behaviour of the watcher. Two modification events for the
same .md path 100 ms apart yield exactly one callback invocation; 600 ms
apart, two invocations; directory events are ignored outright; and two
consecutive processed (callback-firing) events for the same path are always
at least 500 ms apart. -/
theorem C6_debounce_behaviour :
    (runEvents ⟨[]⟩ [(⟨false, "a.md"⟩, 0), (⟨false, "a.md"⟩, 1/10)]).2 = 1
  ∧ (runEvents ⟨[]⟩ [(⟨false, "a.md"⟩, 0), (⟨false, "a.md"⟩, 3/5)]).2 = 2
  ∧ (∀ h p t, on_modified h ⟨true, p⟩ t = (h, false))
  ∧ (∀ h e t₁ t₂, e.is_directory = false → (on_modified h e t₁).2 = true →
      (on_modified (on_modified h e t₁).1 e t₂).2 = true → 1/2 ≤ t₂ - t₁) := by
  have e0 : on_modified ⟨[]⟩ ⟨false, "a.md"⟩ 0 = (⟨[("a.md", 0)]⟩, true) := by decide
  have e1 : on_modified ⟨[("a.md", 0)]⟩ ⟨false, "a.md"⟩ (1/10)
      = (⟨[("a.md", 0)]⟩, false) := by
    rw [on_modified_found _ "a.md" (1/10) 0 (by decide),
      if_pos (by norm_num : (1 : ℚ)/10 - 0 < 1/2)]
  have e2 : on_modified ⟨[("a.md", 0)]⟩ ⟨false, "a.md"⟩ (3/5)
      = (⟨[("a.md", 3/5)]⟩, true) := by
    rw [on_modified_found _ "a.md" (3/5) 0 (by decide),
      if_neg (by norm_num : ¬ ((3 : ℚ)/5 - 0 < 1/2))]
    rfl
  refine ⟨?_, ?_, ?_, ?_⟩
  · simp only [runEvents, e0, e1]
    norm_num
  · simp only [runEvents, e0, e2]
    norm_num
  · intro h p t
    simp [on_modified]
  · intro h e t₁ t₂ hdir h1 h2
    obtain ⟨b, p⟩ := e
    simp only at hdir
    subst hdir
    cases hget : alistGet? h.last_modified p with
    | none =>
      rw [on_modified_missing h p t₁ hget] at h1 h2
      simp only at h2
      rw [on_modified_found _ p t₂ t₁ (alistGet_alistSet _ _ _)] at h2
      by_cases hlt : t₂ - t₁ < 1/2
      · rw [if_pos hlt] at h2
        simp at h2
      · exact le_of_not_lt hlt
    | some last =>
      rw [on_modified_found h p t₁ last hget] at h1 h2
      by_cases hlt1 : t₁ - last < 1/2
      · rw [if_pos hlt1] at h1
        simp at h1
      · rw [if_neg hlt1] at h1 h2
        simp only at h2
        rw [on_modified_found _ p t₂ t₁ (alistGet_alistSet _ _ _)] at h2
        by_cases hlt : t₂ - t₁ < 1/2
        · rw [if_pos hlt] at h2
          simp at h2
        · exact le_of_not_lt hlt

/-- C7: reconciling the rendered 2×2 table with header row A, B and data
row 1, 2 yields the pipe-delimited header row, a --- separator row sized to
the column count, and the data row; and any table whose HTML yields no
rows is passed through unmodified by table_replacer. -/
theorem C7_table_round_trip :
    (convert_tables_to_markdown
        "<table><tr><th>A</th><th>B</th></tr><tr><td>1</td><td>2</td></tr></table>".data
      = "\n\n| A | B |\n| --- | --- |\n| 1 | 2 |\n\n".data)
  ∧ (∀ table_html, tableRows table_html = [] → table_replacer table_html = table_html) := by
  constructor
  · decide
  · intro table_html h
    simp [table_replacer, h]

/-- C8: on every exit path of _execute_code — unsupported language, spawn
failure, normal exit with any code, and timeout — the temporary code file
is deleted; and when a process did run, every file it created remains on
disk untouched. -/
theorem C8_temp_file_cleanup (code language : String) (ev : ExecEvent) :
    (execute_code code language ev).2.tempFileDeleted = true
  ∧ ((get_execution_command language (tempFileName language)).isSome = true →
      (execute_code code language ev).2.filesRemaining = ev.createdFiles) := by
  constructor
  · simp only [execute_code]
    cases hc : get_execution_command language (tempFileName language) <;>
      cases ev <;> simp [hc]
  · intro hsup
    obtain ⟨cmd, hcmd⟩ := Option.isSome_iff_exists.mp hsup
    simp only [execute_code]
    rw [hcmd]
    cases ev <;> simp [ExecEvent.createdFiles]

/-- C9: a save_content message that omits the content field or carries an
empty content string is reconciled to the empty string, the SourceDocument
is overwritten with empty content, and content_updated with status success
is reported — the save path never rejects empty content. -/
theorem C9_empty_content_save (fileBefore : String) (content : Option String)
    (h : content = none ∨ content = some "") :
    html_to_markdown (save_content_field content) = ""
  ∧ handle_content_save fileBefore (save_content_field content) none
      = ("", [WsOutMsg.contentUpdated "success" none], []) := by
  rcases h with h | h <;> subst h <;> exact ⟨rfl, rfl⟩

/-- C9 witness: a message with no content field. -/
theorem C9_empty_content_save_witness :
    html_to_markdown (save_content_field none) = ""
  ∧ handle_content_save "old text" (save_content_field none) none
      = ("", [WsOutMsg.contentUpdated "success" none], []) :=
  C9_empty_content_save "old text" none (Or.inl rfl)

/-- C10: a suppressed modification event leaves the watcher state (and so
the per-path timestamp) unchanged, so a burst of suppressed events never
extends the 500 ms window — it is always measured from the most recent
event that passed the debounce check; and an event arriving 500 ms or more
after the last processed event (or for an unseen path) is always
processed: its timestamp is stored and the callback fires exactly when the
path has the .md extension. -/
theorem C10_debounce_timestamp :
    (∀ h p t last, alistGet? h.last_modified p = some last → t - last < 1/2 →
        on_modified h ⟨false, p⟩ t = (h, false))
  ∧ (∀ h p t last, alistGet? h.last_modified p = some last → 1/2 ≤ t - last →
        alistGet? (on_modified h ⟨false, p⟩ t).1.last_modified p = some t
      ∧ (on_modified h ⟨false, p⟩ t).2 = pyEndswith ".md" p)
  ∧ (∀ h p t, alistGet? h.last_modified p = none →
        alistGet? (on_modified h ⟨false, p⟩ t).1.last_modified p = some t
      ∧ (on_modified h ⟨false, p⟩ t).2 = pyEndswith ".md" p) := by
  refine ⟨?_, ?_, ?_⟩
  · intro h p t last hget hlt
    rw [on_modified_found h p t last hget, if_pos hlt]
  · intro h p t last hget hge
    rw [on_modified_found h p t last hget, if_neg (not_lt.mpr hge)]
    exact ⟨alistGet_alistSet _ _ _, rfl⟩
  · intro h p t hget
    rw [on_modified_missing h p t hget]
    exact ⟨alistGet_alistSet _ _ _, rfl⟩
